import Mathlib

/-!
# Verification of the H.264 Annex-B → RTP packetizer (`src/lib.rs`)

Shallow embedding of the packetizer in `src/lib.rs` of the RtpTransciver
repository. Bytes are modelled as `Nat` values (< 256 at every point where the
source reads real bytes); Rust's `u8`/`u16`/`u32`/`u64` arithmetic is modelled
with explicit `% 2^w` where the source can wrap. Rust slices become `List Nat`
sub-lists via `drop`/`take`. The fallible/panicking indexing of `get_nal` is
embedded in an outer `Option` layer (`none` = panic); packet transmission is
modelled by returning the exact byte sequence the source writes into
`rtp_buffer[..rtp_buffer_size]` before each `send_to` (every byte of that
region is freshly written on every send, so the scratch-buffer reuse in the
source cannot leak stale bytes into a transmitted packet).
-/

namespace RtpTransceiver

set_option autoImplicit false

/-- `const MAX_RTP_BUF_SIZE: usize = 1400;` -/
def MAX_RTP_BUF_SIZE : Nat := 1400

/-- `const RTP_HEADER_SIZE: usize = 12;` -/
def RTP_HEADER_SIZE : Nat := 12

/-- The `H264NalType` enum of the source (`#[repr(u8)]`). -/
inductive H264NalType where
  | UnKnown
  | NonIdr
  | Idr
  | Sei
  | Sps
  | Pps
  | Aud
  | EndOfSeq
  | EndOfStream
  | Filler
  deriving DecidableEq

/-- The `#[repr(u8)]` discriminant of each `H264NalType` constructor
(the value `nal_type as u8` produces in the source). -/
def H264NalType.val : H264NalType → Nat
  | .UnKnown => 0
  | .NonIdr => 1
  | .Idr => 5
  | .Sei => 6
  | .Sps => 7
  | .Pps => 8
  | .Aud => 9
  | .EndOfSeq => 10
  | .EndOfStream => 11
  | .Filler => 12

/-- The `match possible_nal_type { 1 => NonIdr, ... _ => UnKnown }` mapping
that appears (twice, verbatim) in `get_nal`. -/
def natToNalType : Nat → H264NalType
  | 1 => .NonIdr
  | 5 => .Idr
  | 6 => .Sei
  | 7 => .Sps
  | 8 => .Pps
  | 9 => .Aud
  | 10 => .EndOfSeq
  | 11 => .EndOfStream
  | 12 => .Filler
  | _ => .UnKnown

/-! ## RTP header encoding (`RtpHeader::copy_into_array`, `send_rtp_over_udp`) -/

/-- `u16::to_be_bytes` for a value already reduced below 2^16. -/
def u16_be_bytes (n : Nat) : List Nat :=
  [n / 256 % 256, n % 256]

/-- `u32::to_be_bytes` for a value already reduced below 2^32. -/
def u32_be_bytes (n : Nat) : List Nat :=
  [n / 16777216 % 256, n / 65536 % 256, n / 256 % 256, n % 256]

/-- `RtpHeader::copy_into_array`: the 12-byte header array
`[byte1, byte2] ++ seq.to_be_bytes ++ ts.to_be_bytes ++ ssrc.to_be_bytes`. -/
def RtpHeader.copy_into_array (byte1 byte2 seq ts ssrc : Nat) : List Nat :=
  byte1 :: byte2 :: (u16_be_bytes seq ++ u32_be_bytes ts ++ u32_be_bytes ssrc)

/-- The header-field assignments performed by `send_rtp_over_udp` before
`copy_into_array`: all fields start at 0, then
`byte2 |= 1 << 7` (iff `rtp_is_last`), `byte2 |= 96`, `byte1 |= 2 << 6`,
`seq/ts` from the session state, `ssrc = 12345`. Bit operations are on `u8`,
so `&= !(1 << 7)` is a conjunction with `0x7F = 127`. -/
def rtp_header_bytes (rtp_is_last : Bool) (rtp_seq rtp_ts : Nat) : List Nat :=
  let byte2a : Nat :=
    if rtp_is_last then 0 ||| (1 <<< 7) else 0 &&& 127
  let byte2 := byte2a ||| 96
  let byte1 := 0 ||| (2 <<< 6)
  RtpHeader.copy_into_array byte1 byte2 rtp_seq rtp_ts 12345

/-- `send_rtp_over_udp`: builds the 12-byte header, increments `rtp_seq`
(`u16` addition, which wraps modulo 2^16), and transmits
`rtp_buffer[..rtp_buffer_size]`, i.e. the header followed by the payload
bytes the caller placed at offsets `12..rtp_buffer_size` (the caller freshly
writes all of them before each call). Returns the transmitted datagram and
the updated `rtp_seq`. -/
def send_rtp_over_udp (rtp_is_last : Bool) (rtp_seq rtp_ts : Nat)
    (payload : List Nat) : List Nat × Nat :=
  (rtp_header_bytes rtp_is_last rtp_seq rtp_ts ++ payload, (rtp_seq + 1) % 65536)

/-! ## Timestamp (`get_timestamp`) -/

/-- The intermediate `ts90k` value of `get_timestamp`:
`micros` is `as_micros() as u64` (truncation to 64 bits), then
`((micros + 500) / 1000) * 90` in `u64` arithmetic (the sum can wrap; the
quotient times 90 cannot). `now` is the true number of microseconds since the
epoch. -/
def ts90k (now : Nat) : Nat :=
  (((now % 2 ^ 64) + 500) % 2 ^ 64) / 1000 * 90

/-- `get_timestamp`: the `ts90k as u32` truncation of `ts90k`. -/
def get_timestamp (now : Nat) : Nat :=
  ts90k now % 2 ^ 32

/-! ## NAL scanner (`get_nal`)

The two scanning `for` loops are embedded as structurally recursive functions
counting the remaining iterations (`fuel = stop - index`, where
`stop = input_buffer.len() - MAX_START_CODE_LENGTH` is the exclusive upper
bound of the Rust range). Every slice read `input_buffer[i]` goes through
`readU8`, whose `none` result represents the out-of-bounds panic; the outer
`Option` layer of each function propagates such a panic. The source checks the
3-byte and 4-byte start-code patterns with short-circuiting `&&` over
`input_buffer[index + 0..=3]`; the embedding reads those four bytes up front,
which touches exactly the indices the two pattern checks may touch. -/

/-- A bounds-checked byte read: `some` of the byte when `i` is in bounds,
`none` (= index panic) otherwise. -/
def readU8 (buf : List Nat) (i : Nat) : Option Nat :=
  if h : i < buf.length then some (buf.get ⟨i, h⟩) else none

/-- First scanning loop of `get_nal` ("Find the first nal unit"): starting at
`index`, with `fuel` iterations left before `index` reaches the exclusive
bound, look for a 3- or 4-byte start code whose following byte decodes to a
recognized NAL type. Returns `some (some (type, index + start_code,
start_code))` on a break, `some none` when the loop ends without finding one,
and `none` on an index panic. -/
def findStartAux (buf : List Nat) : Nat → Nat → Option (Option (H264NalType × Nat × Nat))
  | 0, _ => some none
  | fuel + 1, index =>
    match readU8 buf index, readU8 buf (index + 1),
        readU8 buf (index + 2), readU8 buf (index + 3) with
    | some b0, some b1, some b2, some b3 =>
      let sc : Option Nat :=
        if b0 = 0 ∧ b1 = 0 ∧ b2 = 1 then some 3
        else if b0 = 0 ∧ b1 = 0 ∧ b2 = 0 ∧ b3 = 1 then some 4
        else none
      match sc with
      | none => findStartAux buf fuel (index + 1)
      | some start_code =>
        match readU8 buf (index + start_code) with
        | none => none
        | some possible_nal_start =>
          let possible_nal_type_enum := natToNalType (possible_nal_start &&& 31)
          if possible_nal_type_enum ≠ H264NalType.UnKnown then
            some (some (possible_nal_type_enum, index + start_code, start_code))
          else
            findStartAux buf fuel (index + 1)
    | _, _, _, _ => none

/-- Second scanning loop of `get_nal` ("Find second Nal unit"): identical
pattern and type validation, but a break records the start-code *position*
(`nal_end_index = index`). -/
def findEndAux (buf : List Nat) : Nat → Nat → Option (Option Nat)
  | 0, _ => some none
  | fuel + 1, index =>
    match readU8 buf index, readU8 buf (index + 1),
        readU8 buf (index + 2), readU8 buf (index + 3) with
    | some b0, some b1, some b2, some b3 =>
      let sc : Option Nat :=
        if b0 = 0 ∧ b1 = 0 ∧ b2 = 1 then some 3
        else if b0 = 0 ∧ b1 = 0 ∧ b2 = 0 ∧ b3 = 1 then some 4
        else none
      match sc with
      | none => findEndAux buf fuel (index + 1)
      | some start_code =>
        match readU8 buf (index + start_code) with
        | none => none
        | some possible_nal_start =>
          let possible_nal_type_enum := natToNalType (possible_nal_start &&& 31)
          if possible_nal_type_enum ≠ H264NalType.UnKnown then
            some (some index)
          else
            findEndAux buf fuel (index + 1)
    | _, _, _, _ => none

/-- `get_nal` with the panic layer made explicit: outer `none` = the function
panics (an index or slice out of bounds), `some r` = it returns `r`.
The early return fires when `input_buffer.len() <= 4`; otherwise the first
loop runs over `0..len - 4`, and on success the second loop runs over
`nal_start_index + start_code..len - 4`. The returned slices
`&input_buffer[nal_start_index..nal_end_index]` and
`&input_buffer[nal_start_index..]` are guarded by exactly the bound checks
Rust slicing performs. -/
def get_nal_checked (input_buffer : List Nat) :
    Option (Option (H264NalType × List Nat × Bool)) :=
  if input_buffer.length ≤ 4 then some none
  else
    match findStartAux input_buffer (input_buffer.length - 4) 0 with
    | none => none
    | some none => some none
    | some (some (nal_type, nal_start_index, start_code)) =>
      match findEndAux input_buffer
          (input_buffer.length - 4 - (nal_start_index + start_code))
          (nal_start_index + start_code) with
      | none => none
      | some none =>
        if nal_start_index ≤ input_buffer.length then
          some (some (nal_type, input_buffer.drop nal_start_index, true))
        else none
      | some (some nal_end_index) =>
        if nal_start_index ≤ nal_end_index ∧ nal_end_index ≤ input_buffer.length then
          some (some (nal_type,
            (input_buffer.drop nal_start_index).take (nal_end_index - nal_start_index),
            false))
        else none

/-- `get_nal`'s returned value (the panic layer collapsed; `get_nal_checked`
is proved panic-free below, so nothing is lost here). -/
def get_nal (input_buffer : List Nat) : Option (H264NalType × List Nat × Bool) :=
  (get_nal_checked input_buffer).getD none

/-! ## FU-A fragmentation and `handle_nal` -/

/-- The `nri_value` match in `handle_nal`. -/
def nriValue (nal_type : H264NalType) : Nat :=
  match nal_type with
  | .Sps | .Pps | .Idr | .NonIdr => 3
  | _ => 0

/-- `FU_A[0]` as built by `handle_nal`: `0 |= 28`, `&= !(1 << 7)`
(a `u8` mask, i.e. `&& 127`), `|= nri_value << 5`. -/
def fuIndicator (nal_type : H264NalType) : Nat :=
  ((0 ||| 28) &&& 127) ||| (nriValue nal_type <<< 5)

/-- `FU_A[1]` as built by `handle_nal` before the fragment loop:
`0 |= nal_type as u8`, `&= !(1 << 5)` (mask `0xDF = 223`), `|= 1 << 7`,
`&= !(1 << 6)` (mask `0xBF = 191`). -/
def fuHeaderInit (nal_type : H264NalType) : Nat :=
  (((0 ||| nal_type.val) &&& 223) ||| 128) &&& 191

/-- The `while remaining_nal.len() + FU_A_SIZE >= MAX_RTP_BUF_SIZE` fragment
loop of `handle_nal`, followed by the trailing "Last packet" send. Middle
packets carry `FU_A ++ remaining_nal[..MAX_RTP_BUF_SIZE - 2]` after the
header (`rtp_buffer_size = RTP_HEADER_SIZE + MAX_RTP_BUF_SIZE`), with
`rtp_is_last = false`; after each send the start bit of `FU_A[1]` is cleared
(`&= !(1 << 7)`, a `u8` mask `127`). The last packet carries
`FU_A` with the end bit set (`|= 1 << 6`) followed by the whole remainder,
with `rtp_is_last = true`. Returns the transmitted packets in order and the
final `rtp_seq`. -/
def fuLoop (fu0 fu1 rtp_ts rtp_seq : Nat) (remaining_nal : List Nat) :
    List (List Nat) × Nat :=
  if h : MAX_RTP_BUF_SIZE ≤ remaining_nal.length + 2 then
    let packet_size := MAX_RTP_BUF_SIZE - 2
    let sent := send_rtp_over_udp false rtp_seq rtp_ts
      (fu0 :: fu1 :: remaining_nal.take packet_size)
    let rest := fuLoop fu0 (fu1 &&& 127) rtp_ts sent.2
      (remaining_nal.drop packet_size)
    (sent.1 :: rest.1, rest.2)
  else
    let sent := send_rtp_over_udp true rtp_seq rtp_ts
      (fu0 :: (fu1 ||| 64) :: remaining_nal)
    ([sent.1], sent.2)
termination_by remaining_nal.length
decreasing_by
  simp only [List.length_drop, MAX_RTP_BUF_SIZE] at *
  omega

/-- `handle_nal`: computes the per-NAL timestamp once (`now` is the wall-clock
microsecond instant `get_timestamp` observes), then either sends the NAL whole
(`nal_buf.len() + RTP_HEADER_SIZE <= MAX_RTP_BUF_SIZE`, `rtp_is_last = true`)
or fragments it via FU-A over `&nal_buf[1..]`. Returns the transmitted
packets in order and the final `rtp_seq`. -/
def handle_nal (now rtp_seq : Nat) (nal_buf : List Nat)
    (nal_type : H264NalType) : List (List Nat) × Nat :=
  let rtp_ts := get_timestamp now
  if nal_buf.length + RTP_HEADER_SIZE ≤ MAX_RTP_BUF_SIZE then
    let sent := send_rtp_over_udp true rtp_seq rtp_ts nal_buf
    ([sent.1], sent.2)
  else
    fuLoop (fuIndicator nal_type) (fuHeaderInit nal_type) rtp_ts rtp_seq
      (nal_buf.drop 1)

/-! ## `send_frame` and a whole session

`send_frame` loops `get_nal` over a shrinking `remaining` slice
(`remaining = &remaining[nal_buf.len()..]` after each NAL) until `get_nal`
returns `None`. The loop is embedded with a structural counter initialised to
`frame_buffer.length`: every successful `get_nal` strips a non-empty prefix
(proved in `get_nal_some_shrinks` below), so the buffer length bounds the
number of iterations and the counter can only hit 0 on an empty buffer, where
`get_nal` returns `none` anyway.

The wall clock is modelled as a function `clock : Nat → Nat` giving the
microsecond instant observed by the `n`-th `get_timestamp` call of the
session, together with a running call counter. Alongside the packets, the
embedding also records the `(nal_type, nal_buf)` argument of every
`handle_nal` call, i.e. which NAL units the loop visits. -/

/-- The `send_frame` loop body, with `fuel` bounding the remaining
iterations. Returns (visited NAL units, transmitted packets, final
`rtp_seq`, final clock counter). -/
def sendFrameAux (clock : Nat → Nat) :
    Nat → Nat → Nat → List Nat →
    List (H264NalType × List Nat) × List (List Nat) × Nat × Nat
  | 0, clk, rtp_seq, _ => ([], [], rtp_seq, clk)
  | fuel + 1, clk, rtp_seq, remaining =>
    match get_nal remaining with
    | some (nal_type, nal_buf, _is_last) =>
      let handled := handle_nal (clock clk) rtp_seq nal_buf nal_type
      let rest := sendFrameAux clock fuel (clk + 1) handled.2
        (remaining.drop nal_buf.length)
      ((nal_type, nal_buf) :: rest.1, handled.1 ++ rest.2.1, rest.2.2)
    | none => ([], [], rtp_seq, clk)

/-- `send_frame` on one frame buffer, from clock counter `clk` and sequence
number `rtp_seq`. -/
def send_frame (clock : Nat → Nat) (clk rtp_seq : Nat)
    (frame_buffer : List Nat) :
    List (H264NalType × List Nat) × List (List Nat) × Nat × Nat :=
  sendFrameAux clock frame_buffer.length clk rtp_seq frame_buffer

/-- A sequence of `send_frame` calls on one pusher, threading `rtp_seq` and
the clock counter. Returns all transmitted packets in transmission order and
the final state. -/
def runSessionAux (clock : Nat → Nat) :
    Nat → Nat → List (List Nat) → List (List Nat) × Nat × Nat
  | clk, rtp_seq, [] => ([], rtp_seq, clk)
  | clk, rtp_seq, frame :: frames =>
    let sent := send_frame clock clk rtp_seq frame
    let rest := runSessionAux clock sent.2.2.2 sent.2.2.1 frames
    (sent.2.1 ++ rest.1, rest.2)

/-- A whole session on one `H264RtpPusher` built by `H264RtpPusher::new`
(which initialises `rtp_seq = 0`). -/
def runSession (clock : Nat → Nat) (frames : List (List Nat)) :
    List (List Nat) × Nat × Nat :=
  runSessionAux clock 0 0 frames

/-! ## Packet field extractors (RFC 3550 / RFC 6184 wire positions) -/

/-- The 16-bit sequence number of a packet (bytes 2-3, big-endian). -/
def seqField (pkt : List Nat) : Nat :=
  pkt.getD 2 0 * 256 + pkt.getD 3 0

/-- The 32-bit timestamp of a packet (bytes 4-7, big-endian). -/
def tsField (pkt : List Nat) : Nat :=
  pkt.getD 4 0 * 16777216 + pkt.getD 5 0 * 65536 + pkt.getD 6 0 * 256 + pkt.getD 7 0

/-- The 32-bit SSRC of a packet (bytes 8-11, big-endian). -/
def ssrcField (pkt : List Nat) : Nat :=
  pkt.getD 8 0 * 16777216 + pkt.getD 9 0 * 65536 + pkt.getD 10 0 * 256 + pkt.getD 11 0

/-- The RTP marker bit (bit 7 of byte 1). -/
def markerBit (pkt : List Nat) : Bool :=
  Nat.testBit (pkt.getD 1 0) 7

/-- The FU header Start bit (bit 7 of byte 13, the second payload byte of an
FU-A packet). -/
def startBit (pkt : List Nat) : Bool :=
  Nat.testBit (pkt.getD 13 0) 7

/-- The FU header End bit (bit 6 of byte 13). -/
def endBit (pkt : List Nat) : Bool :=
  Nat.testBit (pkt.getD 13 0) 6

/-! ## Scanner lemmas: panic-freedom and result bounds -/

theorem readU8_bound {buf : List Nat} {i v : Nat} (h : readU8 buf i = some v) :
    i < buf.length := by
  unfold readU8 at h
  split at h
  · assumption
  · exact absurd h (by simp)

theorem findStartAux_isSome (buf : List Nat) :
    ∀ fuel index, index + fuel + 4 ≤ buf.length →
      (findStartAux buf fuel index).isSome = true := by
  intro fuel
  induction fuel with
  | zero => intro index _; rfl
  | succ n ih =>
    intro index h
    have h0 : index < buf.length := by omega
    have h1 : index + 1 < buf.length := by omega
    have h2 : index + 2 < buf.length := by omega
    have h3 : index + 3 < buf.length := by omega
    have h4 : index + 4 < buf.length := by omega
    rw [findStartAux, readU8, dif_pos h0, readU8, dif_pos h1, readU8, dif_pos h2,
      readU8, dif_pos h3]
    dsimp only
    split
    · exact ih (index + 1) (by omega)
    · next start_code heq =>
      have hsc : start_code = 3 ∨ start_code = 4 := by
        split at heq
        · exact Or.inl (by injection heq; omega)
        · split at heq
          · exact Or.inr (by injection heq; omega)
          · cases heq
      rcases hsc with rfl | rfl
      · rw [readU8, dif_pos h3]
        dsimp only
        split
        · rfl
        · exact ih (index + 1) (by omega)
      · rw [readU8, dif_pos h4]
        dsimp only
        split
        · rfl
        · exact ih (index + 1) (by omega)

theorem findStartAux_bounds (buf : List Nat) :
    ∀ fuel index t ns sc,
      findStartAux buf fuel index = some (some (t, ns, sc)) →
      ns < buf.length ∧ 3 ≤ sc := by
  intro fuel
  induction fuel with
  | zero => intro index t ns sc h; simp [findStartAux] at h
  | succ n ih =>
    intro index t ns sc h
    rw [findStartAux] at h
    cases hr0 : readU8 buf index with
    | none => rw [hr0] at h; simp at h
    | some b0 =>
    rw [hr0] at h
    cases hr1 : readU8 buf (index + 1) with
    | none => rw [hr1] at h; simp at h
    | some b1 =>
    rw [hr1] at h
    cases hr2 : readU8 buf (index + 2) with
    | none => rw [hr2] at h; simp at h
    | some b2 =>
    rw [hr2] at h
    cases hr3 : readU8 buf (index + 3) with
    | none => rw [hr3] at h; simp at h
    | some b3 =>
    rw [hr3] at h
    dsimp only at h
    split at h
    · exact ih (index + 1) t ns sc h
    · next start_code heq =>
      have hsc : start_code = 3 ∨ start_code = 4 := by
        split at heq
        · exact Or.inl (by injection heq; omega)
        · split at heq
          · exact Or.inr (by injection heq; omega)
          · cases heq
      cases hr4 : readU8 buf (index + start_code) with
      | none => rw [hr4] at h; simp at h
      | some pns =>
        rw [hr4] at h
        dsimp only at h
        split at h
        · obtain ⟨-, h2, h3⟩ : natToNalType (pns &&& 31) = t ∧
              index + start_code = ns ∧ start_code = sc := by
            simpa using h
          refine ⟨h2 ▸ readU8_bound hr4, ?_⟩
          omega
        · exact ih (index + 1) t ns sc h

theorem findEndAux_bounds (buf : List Nat) :
    ∀ fuel index ne,
      findEndAux buf fuel index = some (some ne) →
      index ≤ ne ∧ ne < buf.length := by
  intro fuel
  induction fuel with
  | zero => intro index ne h; simp [findEndAux] at h
  | succ n ih =>
    intro index ne h
    rw [findEndAux] at h
    cases hr0 : readU8 buf index with
    | none => rw [hr0] at h; simp at h
    | some b0 =>
    rw [hr0] at h
    cases hr1 : readU8 buf (index + 1) with
    | none => rw [hr1] at h; simp at h
    | some b1 =>
    rw [hr1] at h
    cases hr2 : readU8 buf (index + 2) with
    | none => rw [hr2] at h; simp at h
    | some b2 =>
    rw [hr2] at h
    cases hr3 : readU8 buf (index + 3) with
    | none => rw [hr3] at h; simp at h
    | some b3 =>
    rw [hr3] at h
    dsimp only at h
    split at h
    · have := ih (index + 1) ne h
      omega
    · next start_code heq =>
      cases hr4 : readU8 buf (index + start_code) with
      | none => rw [hr4] at h; simp at h
      | some pns =>
        rw [hr4] at h
        dsimp only at h
        split at h
        · have hne : index = ne := by simpa using h
          exact ⟨hne.le, hne ▸ readU8_bound hr0⟩
        · have := ih (index + 1) ne h
          omega

theorem findEndAux_isSome (buf : List Nat) :
    ∀ fuel index, index + fuel + 4 ≤ buf.length →
      (findEndAux buf fuel index).isSome = true := by
  intro fuel
  induction fuel with
  | zero => intro index _; rfl
  | succ n ih =>
    intro index h
    have h0 : index < buf.length := by omega
    have h1 : index + 1 < buf.length := by omega
    have h2 : index + 2 < buf.length := by omega
    have h3 : index + 3 < buf.length := by omega
    have h4 : index + 4 < buf.length := by omega
    rw [findEndAux, readU8, dif_pos h0, readU8, dif_pos h1, readU8, dif_pos h2,
      readU8, dif_pos h3]
    dsimp only
    split
    · exact ih (index + 1) (by omega)
    · next start_code heq =>
      have hsc : start_code = 3 ∨ start_code = 4 := by
        split at heq
        · exact Or.inl (by injection heq; omega)
        · split at heq
          · exact Or.inr (by injection heq; omega)
          · cases heq
      rcases hsc with rfl | rfl
      · rw [readU8, dif_pos h3]
        dsimp only
        split
        · rfl
        · exact ih (index + 1) (by omega)
      · rw [readU8, dif_pos h4]
        dsimp only
        split
        · rfl
        · exact ih (index + 1) (by omega)

theorem get_nal_checked_isSome (input_buffer : List Nat) :
    (get_nal_checked input_buffer).isSome = true := by
  unfold get_nal_checked
  split
  · rfl
  · next hlen =>
    cases hfs : findStartAux input_buffer (input_buffer.length - 4) 0 with
    | none =>
      have hs := findStartAux_isSome input_buffer (input_buffer.length - 4) 0 (by omega)
      rw [hfs] at hs
      cases hs
    | some r =>
      cases r with
      | none => rfl
      | some v =>
        obtain ⟨t, ns, sc⟩ := v
        have hb := findStartAux_bounds input_buffer _ _ t ns sc hfs
        dsimp only
        cases hfe : findEndAux input_buffer
            (input_buffer.length - 4 - (ns + sc)) (ns + sc) with
        | none =>
          have he : (findEndAux input_buffer
              (input_buffer.length - 4 - (ns + sc)) (ns + sc)).isSome = true := by
            by_cases hle : ns + sc ≤ input_buffer.length - 4
            · exact findEndAux_isSome input_buffer _ _ (by omega)
            · have hz : input_buffer.length - 4 - (ns + sc) = 0 := by omega
              rw [hz]
              rfl
          rw [hfe] at he
          cases he
        | some re =>
          cases re with
          | none =>
            dsimp only
            rw [if_pos hb.1.le]
            rfl
          | some ne =>
            have hbe := findEndAux_bounds input_buffer _ _ ne hfe
            dsimp only
            rw [if_pos (show ns ≤ ne ∧ ne ≤ input_buffer.length by omega)]
            rfl

theorem get_nal_some_shrinks (input_buffer : List Nat)
    (t : H264NalType) (s : List Nat) (tr : Bool)
    (h : get_nal input_buffer = some (t, s, tr)) :
    0 < s.length ∧ (input_buffer.drop s.length).length < input_buffer.length := by
  unfold get_nal get_nal_checked at h
  split at h
  · simp at h
  · next hlen =>
    cases hfs : findStartAux input_buffer (input_buffer.length - 4) 0 with
    | none => rw [hfs] at h; simp at h
    | some r =>
      rw [hfs] at h
      cases r with
      | none => simp at h
      | some v =>
        obtain ⟨t', ns, sc⟩ := v
        have hb := findStartAux_bounds input_buffer _ _ t' ns sc hfs
        dsimp only at h
        cases hfe : findEndAux input_buffer
            (input_buffer.length - 4 - (ns + sc)) (ns + sc) with
        | none => rw [hfe] at h; simp at h
        | some re =>
          rw [hfe] at h
          cases re with
          | none =>
            dsimp only at h
            rw [if_pos hb.1.le] at h
            obtain ⟨-, hs, -⟩ : t' = t ∧ input_buffer.drop ns = s ∧ tr = true := by
              simpa using h
            have hlen1 : s.length = input_buffer.length - ns := by
              rw [← hs, List.length_drop]
            constructor
            · omega
            · rw [List.length_drop]; omega
          | some ne =>
            have hbe := findEndAux_bounds input_buffer _ _ ne hfe
            dsimp only at h
            rw [if_pos (show ns ≤ ne ∧ ne ≤ input_buffer.length by omega)] at h
            obtain ⟨-, hs, -⟩ : t' = t ∧
                (input_buffer.drop ns).take (ne - ns) = s ∧ tr = false := by
              simpa using h
            have hlen1 : s.length = min (ne - ns) (input_buffer.length - ns) := by
              rw [← hs, List.length_take, List.length_drop]
            constructor
            · omega
            · rw [List.length_drop]; omega

/-! ## Packet shape lemmas -/

/-- The packet built by `send_rtp_over_udp`, with the header bytes spelled
out (`0x80 = 2 << 6`; `224 = 1 << 7 | 96`; `12345 = 0x3039` big-endian). -/
theorem send_rtp_over_udp_fst (rtp_is_last : Bool) (rtp_seq rtp_ts : Nat)
    (payload : List Nat) :
    (send_rtp_over_udp rtp_is_last rtp_seq rtp_ts payload).1 =
      128 :: (if rtp_is_last then 224 else 96) ::
      (rtp_seq / 256 % 256) :: (rtp_seq % 256) ::
      (rtp_ts / 16777216 % 256) :: (rtp_ts / 65536 % 256) ::
      (rtp_ts / 256 % 256) :: (rtp_ts % 256) ::
      0 :: 0 :: 48 :: 57 :: payload := by
  cases rtp_is_last <;> rfl

theorem send_rtp_over_udp_snd (rtp_is_last : Bool) (rtp_seq rtp_ts : Nat)
    (payload : List Nat) :
    (send_rtp_over_udp rtp_is_last rtp_seq rtp_ts payload).2 =
      (rtp_seq + 1) % 65536 := rfl

theorem send_length (rtp_is_last : Bool) (rtp_seq rtp_ts : Nat)
    (payload : List Nat) :
    (send_rtp_over_udp rtp_is_last rtp_seq rtp_ts payload).1.length =
      12 + payload.length := by
  rw [send_rtp_over_udp_fst]
  simp
  omega

theorem send_seqField (rtp_is_last : Bool) (rtp_seq rtp_ts : Nat)
    (payload : List Nat) :
    seqField (send_rtp_over_udp rtp_is_last rtp_seq rtp_ts payload).1 =
      rtp_seq % 65536 := by
  rw [send_rtp_over_udp_fst]
  simp [seqField]
  omega

theorem send_tsField (rtp_is_last : Bool) (rtp_seq rtp_ts : Nat)
    (payload : List Nat) :
    tsField (send_rtp_over_udp rtp_is_last rtp_seq rtp_ts payload).1 =
      rtp_ts % 2 ^ 32 := by
  rw [send_rtp_over_udp_fst]
  simp [tsField]
  omega

theorem send_ssrcField (rtp_is_last : Bool) (rtp_seq rtp_ts : Nat)
    (payload : List Nat) :
    ssrcField (send_rtp_over_udp rtp_is_last rtp_seq rtp_ts payload).1 = 12345 := by
  rw [send_rtp_over_udp_fst]
  simp [ssrcField]

theorem send_byte1 (rtp_is_last : Bool) (rtp_seq rtp_ts : Nat)
    (payload : List Nat) :
    (send_rtp_over_udp rtp_is_last rtp_seq rtp_ts payload).1.getD 1 0 =
      if rtp_is_last then 224 else 96 := by
  rw [send_rtp_over_udp_fst]
  simp

theorem send_markerBit (rtp_is_last : Bool) (rtp_seq rtp_ts : Nat)
    (payload : List Nat) :
    markerBit (send_rtp_over_udp rtp_is_last rtp_seq rtp_ts payload).1 =
      rtp_is_last := by
  unfold markerBit
  rw [send_rtp_over_udp_fst]
  cases rtp_is_last <;> simp <;> decide

theorem send_byte12 (rtp_is_last : Bool) (rtp_seq rtp_ts : Nat)
    (payload : List Nat) :
    (send_rtp_over_udp rtp_is_last rtp_seq rtp_ts payload).1.getD 12 0 =
      payload.getD 0 0 := by
  rw [send_rtp_over_udp_fst]
  cases payload <;> simp

theorem send_byte13 (rtp_is_last : Bool) (rtp_seq rtp_ts : Nat)
    (payload : List Nat) :
    (send_rtp_over_udp rtp_is_last rtp_seq rtp_ts payload).1.getD 13 0 =
      payload.getD 1 0 := by
  rw [send_rtp_over_udp_fst]
  rcases payload with - | ⟨a, - | ⟨b, l⟩⟩ <;> simp

/-! ## `fuLoop` unfolding lemmas -/

theorem fuLoop_step {remaining_nal : List Nat} (h : 1398 ≤ remaining_nal.length)
    (fu0 fu1 rtp_ts rtp_seq : Nat) :
    fuLoop fu0 fu1 rtp_ts rtp_seq remaining_nal =
      ((send_rtp_over_udp false rtp_seq rtp_ts
          (fu0 :: fu1 :: remaining_nal.take 1398)).1 ::
        (fuLoop fu0 (fu1 &&& 127) rtp_ts ((rtp_seq + 1) % 65536)
          (remaining_nal.drop 1398)).1,
       (fuLoop fu0 (fu1 &&& 127) rtp_ts ((rtp_seq + 1) % 65536)
          (remaining_nal.drop 1398)).2) := by
  rw [fuLoop, dif_pos (show MAX_RTP_BUF_SIZE ≤ remaining_nal.length + 2 by
    simp only [MAX_RTP_BUF_SIZE]; omega)]
  rfl

theorem fuLoop_last {remaining_nal : List Nat} (h : remaining_nal.length < 1398)
    (fu0 fu1 rtp_ts rtp_seq : Nat) :
    fuLoop fu0 fu1 rtp_ts rtp_seq remaining_nal =
      ([(send_rtp_over_udp true rtp_seq rtp_ts
          (fu0 :: (fu1 ||| 64) :: remaining_nal)).1],
       (rtp_seq + 1) % 65536) := by
  rw [fuLoop, dif_neg (show ¬ MAX_RTP_BUF_SIZE ≤ remaining_nal.length + 2 by
    simp only [MAX_RTP_BUF_SIZE]; omega)]
  rfl

/-- Full characterization of the FU-A fragment loop: packet count, final
sequence number, and per-packet length, RTP byte 1, FU indicator/header
bytes, sequence and timestamp fields. -/
theorem fuLoop_spec (fu0 : Nat) : ∀ (n : Nat) (rem : List Nat), rem.length ≤ n →
    ∀ fu1 rtp_ts rtp_seq : Nat,
      (fuLoop fu0 fu1 rtp_ts rtp_seq rem).1.length = rem.length / 1398 + 1 ∧
      (fuLoop fu0 fu1 rtp_ts rtp_seq rem).2 =
        (rtp_seq + (fuLoop fu0 fu1 rtp_ts rtp_seq rem).1.length) % 65536 ∧
      ∀ i, i < (fuLoop fu0 fu1 rtp_ts rtp_seq rem).1.length →
        ((fuLoop fu0 fu1 rtp_ts rtp_seq rem).1.getD i []).length =
          (if i = (fuLoop fu0 fu1 rtp_ts rtp_seq rem).1.length - 1 then
            14 + rem.length % 1398 else 1412) ∧
        ((fuLoop fu0 fu1 rtp_ts rtp_seq rem).1.getD i []).getD 1 0 =
          (if i = (fuLoop fu0 fu1 rtp_ts rtp_seq rem).1.length - 1 then 224 else 96) ∧
        ((fuLoop fu0 fu1 rtp_ts rtp_seq rem).1.getD i []).getD 12 0 = fu0 ∧
        ((fuLoop fu0 fu1 rtp_ts rtp_seq rem).1.getD i []).getD 13 0 =
          (if i = 0 then fu1 else fu1 &&& 127) |||
            (if i = (fuLoop fu0 fu1 rtp_ts rtp_seq rem).1.length - 1 then 64 else 0) ∧
        seqField ((fuLoop fu0 fu1 rtp_ts rtp_seq rem).1.getD i []) =
          (rtp_seq + i) % 65536 ∧
        tsField ((fuLoop fu0 fu1 rtp_ts rtp_seq rem).1.getD i []) =
          rtp_ts % 2 ^ 32 := by
  have last_case : ∀ (rem : List Nat), rem.length < 1398 →
      ∀ fu1 rtp_ts rtp_seq : Nat,
      (fuLoop fu0 fu1 rtp_ts rtp_seq rem).1.length = rem.length / 1398 + 1 ∧
      (fuLoop fu0 fu1 rtp_ts rtp_seq rem).2 =
        (rtp_seq + (fuLoop fu0 fu1 rtp_ts rtp_seq rem).1.length) % 65536 ∧
      ∀ i, i < (fuLoop fu0 fu1 rtp_ts rtp_seq rem).1.length →
        ((fuLoop fu0 fu1 rtp_ts rtp_seq rem).1.getD i []).length =
          (if i = (fuLoop fu0 fu1 rtp_ts rtp_seq rem).1.length - 1 then
            14 + rem.length % 1398 else 1412) ∧
        ((fuLoop fu0 fu1 rtp_ts rtp_seq rem).1.getD i []).getD 1 0 =
          (if i = (fuLoop fu0 fu1 rtp_ts rtp_seq rem).1.length - 1 then 224 else 96) ∧
        ((fuLoop fu0 fu1 rtp_ts rtp_seq rem).1.getD i []).getD 12 0 = fu0 ∧
        ((fuLoop fu0 fu1 rtp_ts rtp_seq rem).1.getD i []).getD 13 0 =
          (if i = 0 then fu1 else fu1 &&& 127) |||
            (if i = (fuLoop fu0 fu1 rtp_ts rtp_seq rem).1.length - 1 then 64 else 0) ∧
        seqField ((fuLoop fu0 fu1 rtp_ts rtp_seq rem).1.getD i []) =
          (rtp_seq + i) % 65536 ∧
        tsField ((fuLoop fu0 fu1 rtp_ts rtp_seq rem).1.getD i []) =
          rtp_ts % 2 ^ 32 := by
    intro rem hlt fu1 rtp_ts rtp_seq
    rw [fuLoop_last hlt]
    dsimp only
    refine ⟨by simp [Nat.div_eq_of_lt hlt], by simp, ?_⟩
    intro i hi
    simp only [List.length_cons, List.length_nil] at hi
    have hi0 : i = 0 := by omega
    subst hi0
    simp only [List.getD_cons_zero, List.length_cons, List.length_nil, Nat.zero_add,
      Nat.add_sub_cancel, eq_self_iff_true, if_true]
    refine ⟨?_, ?_, ?_, ?_, ?_, ?_⟩
    · rw [send_length, Nat.mod_eq_of_lt hlt]
      simp only [List.length_cons]
      omega
    · rw [send_byte1]
      rfl
    · rw [send_byte12]
      rfl
    · rw [send_byte13]
      rfl
    · rw [send_seqField]
      omega
    · rw [send_tsField]
  intro n
  induction n with
  | zero =>
    intro rem hlen fu1 rtp_ts rtp_seq
    exact last_case rem (by omega) fu1 rtp_ts rtp_seq
  | succ m ih =>
    intro rem hlen fu1 rtp_ts rtp_seq
    by_cases hc : 1398 ≤ rem.length
    · rw [fuLoop_step hc]
      dsimp only
      have hdrop : (rem.drop 1398).length = rem.length - 1398 := by
        simp [List.length_drop]
      obtain ⟨ihlen, ihseq, ihpkt⟩ :=
        ih (rem.drop 1398) (by omega) (fu1 &&& 127) rtp_ts ((rtp_seq + 1) % 65536)
      set R := fuLoop fu0 (fu1 &&& 127) rtp_ts ((rtp_seq + 1) % 65536)
        (rem.drop 1398) with hR
      rw [hdrop] at ihlen
      have hR1 : 1 ≤ R.1.length := by omega
      refine ⟨?_, ?_, ?_⟩
      · simp only [List.length_cons]
        omega
      · simp only [List.length_cons]
        rw [ihseq]
        omega
      · intro i hi
        simp only [List.length_cons] at hi ⊢
        cases i with
        | zero =>
          have hne : ¬ ((0 : Nat) = R.1.length + 1 - 1) := by omega
          simp only [List.getD_cons_zero]
          refine ⟨?_, ?_, ?_, ?_, ?_, ?_⟩
          · rw [if_neg hne, send_length]
            simp only [List.length_cons]
            rw [List.length_take]
            omega
          · rw [if_neg hne, send_byte1]
            rfl
          · rw [send_byte12]
            rfl
          · rw [if_neg hne, send_byte13]
            simp only [List.getD_cons_succ, List.getD_cons_zero, eq_self_iff_true,
              if_true, Nat.or_zero]
          · rw [send_seqField]
            omega
          · rw [send_tsField]
        | succ j =>
          have hj : j < R.1.length := by omega
          simp only [List.getD_cons_succ]
          obtain ⟨p1, p2, p3, p4, p5, p6⟩ := ihpkt j hj
          rw [hdrop] at p1
          refine ⟨?_, ?_, p3, ?_, ?_, ?_⟩
          · rw [p1]
            by_cases hl : j = R.1.length - 1
            · rw [if_pos hl, if_pos (show j + 1 = R.1.length + 1 - 1 by omega)]
              omega
            · rw [if_neg hl, if_neg (show ¬ (j + 1 = R.1.length + 1 - 1) by omega)]
          · rw [p2]
            by_cases hl : j = R.1.length - 1
            · rw [if_pos hl, if_pos (show j + 1 = R.1.length + 1 - 1 by omega)]
            · rw [if_neg hl, if_neg (show ¬ (j + 1 = R.1.length + 1 - 1) by omega)]
          · rw [p4]
            have hidem : (fu1 &&& 127) &&& 127 = fu1 &&& 127 := by
              rw [Nat.land_assoc]
              norm_num
            rw [hidem, ite_self,
              if_neg (show ¬ (j + 1 = 0) by omega)]
            by_cases hl : j = R.1.length - 1
            · rw [if_pos hl, if_pos (show j + 1 = R.1.length + 1 - 1 by omega)]
            · rw [if_neg hl, if_neg (show ¬ (j + 1 = R.1.length + 1 - 1) by omega)]
          · rw [p5]
            omega
          · exact p6
    · exact last_case rem (by omega) fu1 rtp_ts rtp_seq

theorem get_timestamp_lt (now : Nat) : get_timestamp now < 2 ^ 32 :=
  Nat.mod_lt _ (by norm_num)

theorem get_timestamp_mod (now : Nat) :
    get_timestamp now % 2 ^ 32 = get_timestamp now :=
  Nat.mod_eq_of_lt (get_timestamp_lt now)

/-- Per-packet summary of `handle_nal`: at least one packet is sent, the
sequence counter advances by the packet count (mod 2^16), the packets carry
consecutive sequence numbers starting at the entry `rtp_seq`, and they all
carry the single timestamp computed from `now` at entry. -/
theorem handle_nal_spec (now rtp_seq : Nat) (nal_buf : List Nat)
    (nal_type : H264NalType) :
    1 ≤ (handle_nal now rtp_seq nal_buf nal_type).1.length ∧
    (handle_nal now rtp_seq nal_buf nal_type).2 =
      (rtp_seq + (handle_nal now rtp_seq nal_buf nal_type).1.length) % 65536 ∧
    ∀ i, i < (handle_nal now rtp_seq nal_buf nal_type).1.length →
      seqField ((handle_nal now rtp_seq nal_buf nal_type).1.getD i []) =
        (rtp_seq + i) % 65536 ∧
      tsField ((handle_nal now rtp_seq nal_buf nal_type).1.getD i []) =
        get_timestamp now := by
  unfold handle_nal
  dsimp only
  by_cases hc : nal_buf.length + RTP_HEADER_SIZE ≤ MAX_RTP_BUF_SIZE
  · rw [if_pos hc]
    dsimp only
    refine ⟨by simp, by rw [send_rtp_over_udp_snd]; simp, ?_⟩
    intro i hi
    simp only [List.length_cons, List.length_nil] at hi
    have h0 : i = 0 := by omega
    subst h0
    rw [List.getD_cons_zero]
    constructor
    · rw [send_seqField]
      omega
    · rw [send_tsField]
      exact get_timestamp_mod now
  · rw [if_neg hc]
    obtain ⟨flen, fseq, fpkt⟩ := fuLoop_spec (fuIndicator nal_type)
      (nal_buf.drop 1).length (nal_buf.drop 1) le_rfl (fuHeaderInit nal_type)
      (get_timestamp now) rtp_seq
    refine ⟨by omega, fseq, ?_⟩
    intro i hi
    obtain ⟨-, -, -, -, p5, p6⟩ := fpkt i hi
    refine ⟨p5, ?_⟩
    rw [p6]
    exact get_timestamp_mod now

/-! ## Consecutive sequence numbers -/

theorem map_seqField_eq (pkts : List (List Nat)) (s : Nat)
    (h : ∀ i, i < pkts.length → seqField (pkts.getD i []) = (s + i) % 65536) :
    pkts.map seqField =
      (List.range pkts.length).map (fun i => (s + i) % 65536) := by
  apply List.ext_getElem (by simp)
  intro i h1 h2
  have hlt : i < pkts.length := by simpa using h1
  have := h i hlt
  rw [List.getD_eq_getElem pkts [] hlt] at this
  simpa using this

theorem seqs_append (s : Nat) (p1 p2 : List (List Nat))
    (h1 : p1.map seqField = (List.range p1.length).map (fun i => (s + i) % 65536))
    (h2 : p2.map seqField =
      (List.range p2.length).map (fun i => ((s + p1.length) % 65536 + i) % 65536)) :
    (p1 ++ p2).map seqField =
      (List.range (p1 ++ p2).length).map (fun i => (s + i) % 65536) := by
  rw [List.map_append, h1, h2, List.length_append, List.range_add,
    List.map_append, List.map_map]
  congr 1
  apply List.map_congr_left
  intro i _
  simp only [Function.comp_apply]
  omega

/-- The `send_frame` loop preserves the "consecutive sequence numbers"
invariant: starting from `rtp_seq < 2^16`, the packets it transmits carry
`rtp_seq, rtp_seq + 1, ...` (mod 2^16) and the final counter is `rtp_seq`
plus the packet count (mod 2^16). -/
theorem sendFrameAux_seqs (clock : Nat → Nat) :
    ∀ (fuel clk rtp_seq : Nat) (buf : List Nat), rtp_seq < 65536 →
      (sendFrameAux clock fuel clk rtp_seq buf).2.1.map seqField =
        (List.range (sendFrameAux clock fuel clk rtp_seq buf).2.1.length).map
          (fun i => (rtp_seq + i) % 65536) ∧
      (sendFrameAux clock fuel clk rtp_seq buf).2.2.1 =
        (rtp_seq + (sendFrameAux clock fuel clk rtp_seq buf).2.1.length) % 65536 := by
  intro fuel
  induction fuel with
  | zero =>
    intro clk rtp_seq buf hseq
    refine ⟨rfl, ?_⟩
    simp only [sendFrameAux, List.length_nil]
    omega
  | succ n ih =>
    intro clk rtp_seq buf hseq
    rw [sendFrameAux]
    cases hga : get_nal buf with
    | none =>
      refine ⟨rfl, ?_⟩
      simp only [List.length_nil]
      omega
    | some v =>
      obtain ⟨t, nb, il⟩ := v
      dsimp only
      obtain ⟨hn1, hn2, hn3⟩ := handle_nal_spec (clock clk) rtp_seq nb t
      have hmap1 := map_seqField_eq _ rtp_seq (fun i hi => (hn3 i hi).1)
      rw [hn2]
      obtain ⟨ihmap, ihseq⟩ := ih (clk + 1)
        ((rtp_seq + (handle_nal (clock clk) rtp_seq nb t).1.length) % 65536)
        (buf.drop nb.length) (Nat.mod_lt _ (by norm_num))
      constructor
      · exact seqs_append rtp_seq _ _ hmap1 ihmap
      · rw [ihseq, List.length_append]
        omega

/-- The whole-session version of `sendFrameAux_seqs`. -/
theorem runSessionAux_seqs (clock : Nat → Nat) :
    ∀ (frames : List (List Nat)) (clk rtp_seq : Nat), rtp_seq < 65536 →
      (runSessionAux clock clk rtp_seq frames).1.map seqField =
        (List.range (runSessionAux clock clk rtp_seq frames).1.length).map
          (fun i => (rtp_seq + i) % 65536) ∧
      (runSessionAux clock clk rtp_seq frames).2.1 =
        (rtp_seq + (runSessionAux clock clk rtp_seq frames).1.length) % 65536 := by
  intro frames
  induction frames with
  | nil =>
    intro clk rtp_seq hseq
    refine ⟨rfl, ?_⟩
    simp only [runSessionAux, List.length_nil]
    omega
  | cons f fs ih =>
    intro clk rtp_seq hseq
    rw [runSessionAux]
    dsimp only
    obtain ⟨m1, m2⟩ := sendFrameAux_seqs clock f.length clk rtp_seq f hseq
    rw [show sendFrameAux clock f.length clk rtp_seq f =
      send_frame clock clk rtp_seq f from rfl] at m1 m2
    rw [m2]
    obtain ⟨im1, im2⟩ := ih (send_frame clock clk rtp_seq f).2.2.2
      ((rtp_seq + (send_frame clock clk rtp_seq f).2.1.length) % 65536)
      (Nat.mod_lt _ (by norm_num))
    constructor
    · exact seqs_append rtp_seq _ _ m1 im1
    · rw [im2, List.length_append]
      omega

/-! ## Claim theorems -/

/-- C9: `get_nal` is total on every input byte slice: every index used to
read the buffer in both scanning loops is in bounds and the returned slice
bounds are ordered and within the buffer, so the panic-tracking embedding
`get_nal_checked` never returns the panic value and agrees with `get_nal`. -/
theorem c9_get_nal_total (input_buffer : List Nat) :
    get_nal_checked input_buffer = some (get_nal input_buffer) := by
  have h := get_nal_checked_isSome input_buffer
  cases hc : get_nal_checked input_buffer with
  | none => rw [hc] at h; cases h
  | some r => rw [get_nal, hc]; rfl

/-- C10: every `some` result of `get_nal` carries a non-empty slice, so the
`remaining` buffer of the `send_frame` loop strictly shrinks on each
iteration (`remaining.drop nal_buf.length` is strictly shorter) until
`get_nal` returns `none` and the loop terminates. -/
theorem c10_send_frame_terminates (input_buffer : List Nat) (t : H264NalType)
    (s : List Nat) (tr : Bool) (h : get_nal input_buffer = some (t, s, tr)) :
    0 < s.length ∧
    (input_buffer.drop s.length).length < input_buffer.length :=
  get_nal_some_shrinks input_buffer t s tr h

theorem c10_witness :
    0 < ([0x65, 0xAA, 0xBB] : List Nat).length ∧
    (([0, 0, 1, 0x65, 0xAA, 0xBB] : List Nat).drop
      ([0x65, 0xAA, 0xBB] : List Nat).length).length <
      ([0, 0, 1, 0x65, 0xAA, 0xBB] : List Nat).length :=
  c10_send_frame_terminates [0, 0, 1, 0x65, 0xAA, 0xBB] H264NalType.Idr
    [0x65, 0xAA, 0xBB] true (by decide)

/-- C8: a buffer of length at most 4 yields no NAL unit from `get_nal`, and
`send_frame` on it transmits no packet and leaves `rtp_seq` unchanged. -/
theorem c8_short_input (input_buffer : List Nat) (clock : Nat → Nat)
    (clk rtp_seq : Nat) (h : input_buffer.length ≤ 4) :
    get_nal input_buffer = none ∧
    (send_frame clock clk rtp_seq input_buffer).2.1 = [] ∧
    (send_frame clock clk rtp_seq input_buffer).2.2.1 = rtp_seq := by
  have hg : get_nal input_buffer = none := by
    unfold get_nal get_nal_checked
    rw [if_pos h]
    rfl
  have hsf : send_frame clock clk rtp_seq input_buffer = ([], [], rtp_seq, clk) := by
    unfold send_frame
    cases hl : input_buffer.length with
    | zero => rfl
    | succ n => rw [sendFrameAux, hg]
  exact ⟨hg, by rw [hsf], by rw [hsf]⟩

theorem c8_witness :
    get_nal [0, 0, 1] = none ∧
    (send_frame (fun _ => 0) 0 5 [0, 0, 1]).2.1 = [] ∧
    (send_frame (fun _ => 0) 0 5 [0, 0, 1]).2.2.1 = 5 :=
  c8_short_input [0, 0, 1] (fun _ => 0) 0 5 (by decide)

/-- C3: a NAL unit of length `L` with `L + 12 ≤ 1400` is sent by
`handle_nal` as exactly one RTP packet of total length `L + 12` with the
marker bit set. -/
theorem c3_single_packet (now rtp_seq : Nat) (nal_buf : List Nat)
    (nal_type : H264NalType) (h : nal_buf.length + 12 ≤ 1400) :
    (handle_nal now rtp_seq nal_buf nal_type).1.length = 1 ∧
    ((handle_nal now rtp_seq nal_buf nal_type).1.getD 0 []).length =
      nal_buf.length + 12 ∧
    markerBit ((handle_nal now rtp_seq nal_buf nal_type).1.getD 0 []) = true := by
  unfold handle_nal
  dsimp only
  rw [if_pos (show nal_buf.length + RTP_HEADER_SIZE ≤ MAX_RTP_BUF_SIZE from h)]
  dsimp only
  refine ⟨rfl, ?_, ?_⟩
  · rw [List.getD_cons_zero, send_length]
    omega
  · rw [List.getD_cons_zero, send_markerBit]

theorem c3_witness :
    (handle_nal 0 0 [0x65, 1, 2] H264NalType.Idr).1.length = 1 ∧
    ((handle_nal 0 0 [0x65, 1, 2] H264NalType.Idr).1.getD 0 []).length =
      ([0x65, 1, 2] : List Nat).length + 12 ∧
    markerBit ((handle_nal 0 0 [0x65, 1, 2] H264NalType.Idr).1.getD 0 []) = true :=
  c3_single_packet 0 0 [0x65, 1, 2] H264NalType.Idr (by decide)

/-- C7: the 12-byte header built by `send_rtp_over_udp` before each send has
byte 0 = `0x80` (version 2, no padding/extension/CSRC), byte 1 =
`marker << 7 | 96`, bytes 2-3 the sequence number big-endian, bytes 4-7 the
timestamp big-endian, and bytes 8-11 the constant SSRC 12345 big-endian. -/
theorem c7_header_layout (rtp_is_last : Bool) (rtp_seq rtp_ts : Nat)
    (h1 : rtp_seq < 2 ^ 16) (h2 : rtp_ts < 2 ^ 32) :
    (rtp_header_bytes rtp_is_last rtp_seq rtp_ts).length = 12 ∧
    (rtp_header_bytes rtp_is_last rtp_seq rtp_ts).getD 0 0 = 128 ∧
    (rtp_header_bytes rtp_is_last rtp_seq rtp_ts).getD 1 0 =
      (if rtp_is_last then 1 else 0) * 128 + 96 ∧
    seqField (rtp_header_bytes rtp_is_last rtp_seq rtp_ts) = rtp_seq ∧
    tsField (rtp_header_bytes rtp_is_last rtp_seq rtp_ts) = rtp_ts ∧
    ssrcField (rtp_header_bytes rtp_is_last rtp_seq rtp_ts) = 12345 := by
  have hform : rtp_header_bytes rtp_is_last rtp_seq rtp_ts =
      [128, if rtp_is_last then 224 else 96,
       rtp_seq / 256 % 256, rtp_seq % 256,
       rtp_ts / 16777216 % 256, rtp_ts / 65536 % 256,
       rtp_ts / 256 % 256, rtp_ts % 256,
       0, 0, 48, 57] := by
    cases rtp_is_last <;> rfl
  rw [hform]
  refine ⟨rfl, rfl, ?_, ?_, ?_, ?_⟩
  · cases rtp_is_last <;> norm_num
  · simp only [seqField, List.getD_cons_succ, List.getD_cons_zero]
    omega
  · simp only [tsField, List.getD_cons_succ, List.getD_cons_zero]
    omega
  · simp only [ssrcField, List.getD_cons_succ, List.getD_cons_zero]

theorem c7_witness :
    (rtp_header_bytes true 300 70000).length = 12 ∧
    (rtp_header_bytes true 300 70000).getD 0 0 = 128 ∧
    (rtp_header_bytes true 300 70000).getD 1 0 = (if true then 1 else 0) * 128 + 96 ∧
    seqField (rtp_header_bytes true 300 70000) = 300 ∧
    tsField (rtp_header_bytes true 300 70000) = 70000 ∧
    ssrcField (rtp_header_bytes true 300 70000) = 12345 :=
  c7_header_layout true 300 70000 (by norm_num) (by norm_num)

/-- C5: across any session (any frame sequence on one pusher built by
`H264RtpPusher::new`, which starts `rtp_seq` at 0), the transmitted packets
carry strictly consecutive sequence numbers modulo 2^16 starting from 0:
the `i`-th packet in transmission order carries `i mod 65536`. -/
theorem c5_consecutive_sequence_numbers (clock : Nat → Nat)
    (frames : List (List Nat)) :
    (runSession clock frames).1.map seqField =
      (List.range (runSession clock frames).1.length).map
        (fun i => i % 65536) := by
  have h := (runSessionAux_seqs clock frames 0 0 (by norm_num)).1
  unfold runSession
  rw [h]
  apply List.map_congr_left
  intro i _
  omega

/-- C2 (code bug): on the buffer
`00 00 00 01 67 AA BB 00 00 01 65 CC DD EE` the scanner does **not** return
`(SPS, [67 AA BB], false)`: the second scanning loop starts at
`nal_start_index + start_code` (past the next start code, because
`nal_start_index` already excludes the first start code), misses the
`00 00 01` at offset 7, and returns the two units merged as one trailing
SPS unit. -/
theorem c2_scanner_divergence :
    get_nal [0, 0, 0, 1, 0x67, 0xAA, 0xBB, 0, 0, 1, 0x65, 0xCC, 0xDD, 0xEE] =
      some (H264NalType.Sps,
        [0x67, 0xAA, 0xBB, 0, 0, 1, 0x65, 0xCC, 0xDD, 0xEE], true) ∧
    get_nal [0, 0, 0, 1, 0x67, 0xAA, 0xBB, 0, 0, 1, 0x65, 0xCC, 0xDD, 0xEE] ≠
      some (H264NalType.Sps, [0x67, 0xAA, 0xBB], false) := by
  decide

/-- C4 (code bug): on the valid two-NAL Annex-B buffer of C2, the
`send_frame` loop visits a single merged NAL unit (typed SPS, containing the
IDR unit's bytes inside its payload) instead of visiting the SPS and IDR
units separately, so not every recognized NAL unit of the stream is visited
exactly once. -/
theorem c4_send_frame_divergence :
    (send_frame (fun _ => 0) 0 0
        [0, 0, 0, 1, 0x67, 0xAA, 0xBB, 0, 0, 1, 0x65, 0xCC, 0xDD, 0xEE]).1 =
      [(H264NalType.Sps,
        [0x67, 0xAA, 0xBB, 0, 0, 1, 0x65, 0xCC, 0xDD, 0xEE])] ∧
    ¬ (∃ v ∈ (send_frame (fun _ => 0) 0 0
        [0, 0, 0, 1, 0x67, 0xAA, 0xBB, 0, 0, 1, 0x65, 0xCC, 0xDD, 0xEE]).1,
        v.1 = H264NalType.Idr) := by
  decide

/-- C6 (counterexample): `get_timestamp` truncates the 90 kHz value to 32
bits, so two instants 1 ms apart across a 2^32 wrap of the 90 kHz clock
produce a *decreasing* stored timestamp. -/
theorem c6_counterexample :
    (47721858000 : Nat) ≤ 47721859000 ∧
    get_timestamp 47721858000 = 4294967220 ∧
    get_timestamp 47721859000 = 14 ∧
    ¬ get_timestamp 47721858000 ≤ get_timestamp 47721859000 := by
  refine ⟨by norm_num, by decide, by decide, by decide⟩

/-- C6 (amended): the timestamp is computed once per NAL unit as
`((micros + 500) / 1000) * 90` truncated to 32 bits (with `micros` itself
truncated to 64 bits); every packet emitted for that NAL unit carries this
identical timestamp; and the *untruncated* 90 kHz values are non-decreasing
in the wall-clock instant (the stored 32-bit value may wrap). -/
theorem c6_amended (now rtp_seq : Nat) (nal_buf : List Nat)
    (nal_type : H264NalType) (m1 m2 : Nat) :
    (∀ pkt ∈ (handle_nal now rtp_seq nal_buf nal_type).1,
      tsField pkt = get_timestamp now) ∧
    get_timestamp now = ts90k now % 2 ^ 32 ∧
    (m1 ≤ m2 → m2 + 500 < 2 ^ 64 → ts90k m1 ≤ ts90k m2) := by
  refine ⟨?_, rfl, ?_⟩
  · intro pkt hp
    obtain ⟨i, hi, rfl⟩ := List.mem_iff_getElem.mp hp
    obtain ⟨-, hts⟩ := (handle_nal_spec now rtp_seq nal_buf nal_type).2.2 i hi
    rw [List.getD_eq_getElem _ [] hi] at hts
    exact hts
  · intro hle hlt
    unfold ts90k
    rw [Nat.mod_eq_of_lt (show m1 < 2 ^ 64 by omega),
      Nat.mod_eq_of_lt (show m2 < 2 ^ 64 by omega),
      Nat.mod_eq_of_lt (show m1 + 500 < 2 ^ 64 by omega),
      Nat.mod_eq_of_lt (show m2 + 500 < 2 ^ 64 by omega)]
    exact Nat.mul_le_mul_right 90 (Nat.div_le_div_right (by omega))

theorem c6_amended_witness :
    (∀ pkt ∈ (handle_nal 1000000 7 [0x65, 1, 2] H264NalType.Idr).1,
      tsField pkt = get_timestamp 1000000) ∧
    get_timestamp 1000000 = ts90k 1000000 % 2 ^ 32 ∧
    ts90k 1000 ≤ ts90k 2000 := by
  have h := c6_amended 1000000 7 [0x65, 1, 2] H264NalType.Idr 1000 2000
  exact ⟨h.1, h.2.1, h.2.2 (by norm_num) (by norm_num)⟩

/-- C1 (amended): for a NAL unit of length `L` with `L + 12 > 1400`,
`handle_nal` emits exactly `(L - 1) / 1398 + 1` packets (one more than
`ceil((L-1)/1398)` when `1398` divides `L - 1`); every non-final packet has
total length exactly 1412 bytes (12-byte RTP header + 2-byte FU header +
1398 payload bytes) and the final packet has length
`14 + ((L - 1) mod 1398)`, so every packet is at most 1412 bytes (not 1400);
the FU Start bit is set exactly on the first fragment and the End bit
exactly on the last (both on the same fragment when only one is emitted);
the marker bit is set exactly on the final packet. -/
theorem c1_amended (now rtp_seq : Nat) (nal_buf : List Nat)
    (nal_type : H264NalType) (h : 1400 < nal_buf.length + 12) :
    (handle_nal now rtp_seq nal_buf nal_type).1.length =
      (nal_buf.length - 1) / 1398 + 1 ∧
    ∀ i, i < (handle_nal now rtp_seq nal_buf nal_type).1.length →
      ((handle_nal now rtp_seq nal_buf nal_type).1.getD i []).length =
        (if i = (handle_nal now rtp_seq nal_buf nal_type).1.length - 1 then
          14 + (nal_buf.length - 1) % 1398 else 1412) ∧
      ((handle_nal now rtp_seq nal_buf nal_type).1.getD i []).length ≤ 1412 ∧
      (startBit ((handle_nal now rtp_seq nal_buf nal_type).1.getD i []) = true ↔
        i = 0) ∧
      (endBit ((handle_nal now rtp_seq nal_buf nal_type).1.getD i []) = true ↔
        i = (handle_nal now rtp_seq nal_buf nal_type).1.length - 1) ∧
      (markerBit ((handle_nal now rtp_seq nal_buf nal_type).1.getD i []) = true ↔
        i = (handle_nal now rtp_seq nal_buf nal_type).1.length - 1) := by
  have hcond : ¬ (nal_buf.length + RTP_HEADER_SIZE ≤ MAX_RTP_BUF_SIZE) := by
    simp only [RTP_HEADER_SIZE, MAX_RTP_BUF_SIZE]
    omega
  have he : handle_nal now rtp_seq nal_buf nal_type =
      fuLoop (fuIndicator nal_type) (fuHeaderInit nal_type) (get_timestamp now)
        rtp_seq (nal_buf.drop 1) := by
    unfold handle_nal
    rw [if_neg hcond]
  rw [he]
  set F := fuLoop (fuIndicator nal_type) (fuHeaderInit nal_type)
    (get_timestamp now) rtp_seq (nal_buf.drop 1) with hF
  have hdl : (nal_buf.drop 1).length = nal_buf.length - 1 := by
    simp [List.length_drop]
  obtain ⟨flen, -, fpkt⟩ := fuLoop_spec (fuIndicator nal_type)
    (nal_buf.drop 1).length (nal_buf.drop 1) le_rfl (fuHeaderInit nal_type)
    (get_timestamp now) rtp_seq
  rw [← hF] at flen fpkt
  rw [hdl] at flen
  have hb : (fuHeaderInit nal_type).testBit 7 = true ∧
      (fuHeaderInit nal_type).testBit 6 = false ∧
      (fuHeaderInit nal_type &&& 127).testBit 7 = false ∧
      (fuHeaderInit nal_type &&& 127).testBit 6 = false := by
    cases nal_type <;> exact ⟨by decide, by decide, by decide, by decide⟩
  refine ⟨flen, ?_⟩
  intro i hi
  obtain ⟨p1, p2, -, p4, -, -⟩ := fpkt i hi
  rw [hdl] at p1
  refine ⟨p1, ?_, ?_, ?_, ?_⟩
  · rw [p1]
    have := Nat.mod_lt (nal_buf.length - 1) (show 0 < 1398 by norm_num)
    split <;> omega
  · unfold startBit
    rw [p4, Nat.testBit_lor]
    by_cases h0 : i = 0
    · rw [if_pos h0, hb.1]
      simp [h0]
    · rw [if_neg h0, hb.2.2.1, Bool.false_or]
      constructor
      · intro hbit
        exfalso
        revert hbit
        split <;> decide
      · intro h0'
        exact absurd h0' h0
  · unfold endBit
    rw [p4, Nat.testBit_lor]
    have hA : (if i = 0 then fuHeaderInit nal_type
        else fuHeaderInit nal_type &&& 127).testBit 6 = false := by
      split
      · exact hb.2.1
      · exact hb.2.2.2
    rw [hA, Bool.false_or]
    by_cases hl : i = F.1.length - 1
    · rw [if_pos hl, show Nat.testBit 64 6 = true from by decide]
      simp [hl]
    · rw [if_neg hl, show Nat.testBit 0 6 = false from by decide]
      simp [hl]
  · unfold markerBit
    rw [p2]
    by_cases hl : i = F.1.length - 1
    · rw [if_pos hl, show Nat.testBit 224 7 = true from by decide]
      simp [hl]
    · rw [if_neg hl, show Nat.testBit 96 7 = false from by decide]
      simp [hl]

theorem c1_amended_witness :
    (handle_nal 0 0 (0x65 :: List.replicate 1389 0xAA) H264NalType.Idr).1.length =
      ((0x65 :: List.replicate 1389 (0xAA : Nat)).length - 1) / 1398 + 1 :=
  (c1_amended 0 0 (0x65 :: List.replicate 1389 0xAA) H264NalType.Idr
    (by simp only [List.length_cons, List.length_replicate]; omega)).1

/-- C1 (counterexample): the claim as stated fails on the code.
For `L = 1399` (`L - 1 = 1398` divisible by 1398) the claimed count
`ceil((L-1)/1398) = 1` but the code emits 2 packets, and the first packet is
1412 bytes long, violating the claimed 1400-byte bound. For `L = 1389` a
single fragment is emitted carrying End = 1, violating the claim that the
first fragment has Start=1, End=0. -/
theorem c1_counterexample :
    ((0x65 :: List.replicate 1398 (0xAA : Nat)).length = 1399 ∧
      (1398 + 1397) / 1398 = 1 ∧
      (handle_nal 0 0 (0x65 :: List.replicate 1398 0xAA)
        H264NalType.Idr).1.length = 2) ∧
    ¬ (∀ pkt ∈ (handle_nal 0 0 (0x65 :: List.replicate 1398 0xAA)
        H264NalType.Idr).1, pkt.length ≤ 1400) ∧
    ((handle_nal 0 0 (0x65 :: List.replicate 1388 0xAA)
        H264NalType.Idr).1.length = 1 ∧
      endBit ((handle_nal 0 0 (0x65 :: List.replicate 1388 0xAA)
        H264NalType.Idr).1.getD 0 []) = true) := by
  have hcondA : ¬ ((0x65 :: List.replicate 1398 (0xAA : Nat)).length +
      RTP_HEADER_SIZE ≤ MAX_RTP_BUF_SIZE) := by
    simp only [List.length_cons, List.length_replicate, RTP_HEADER_SIZE,
      MAX_RTP_BUF_SIZE]
    omega
  have heA : handle_nal 0 0 (0x65 :: List.replicate 1398 0xAA) H264NalType.Idr =
      fuLoop (fuIndicator H264NalType.Idr) (fuHeaderInit H264NalType.Idr)
        (get_timestamp 0) 0 (List.replicate 1398 0xAA) := by
    unfold handle_nal
    rw [if_neg hcondA]
    rfl
  obtain ⟨flenA, -, fpktA⟩ := fuLoop_spec (fuIndicator H264NalType.Idr)
    (List.replicate 1398 (0xAA : Nat)).length (List.replicate 1398 0xAA) le_rfl
    (fuHeaderInit H264NalType.Idr) (get_timestamp 0) 0
  simp only [List.length_replicate] at flenA
  norm_num at flenA
  have hcondB : ¬ ((0x65 :: List.replicate 1388 (0xAA : Nat)).length +
      RTP_HEADER_SIZE ≤ MAX_RTP_BUF_SIZE) := by
    simp only [List.length_cons, List.length_replicate, RTP_HEADER_SIZE,
      MAX_RTP_BUF_SIZE]
    omega
  have heB : handle_nal 0 0 (0x65 :: List.replicate 1388 0xAA) H264NalType.Idr =
      fuLoop (fuIndicator H264NalType.Idr) (fuHeaderInit H264NalType.Idr)
        (get_timestamp 0) 0 (List.replicate 1388 0xAA) := by
    unfold handle_nal
    rw [if_neg hcondB]
    rfl
  obtain ⟨flenB, -, fpktB⟩ := fuLoop_spec (fuIndicator H264NalType.Idr)
    (List.replicate 1388 (0xAA : Nat)).length (List.replicate 1388 0xAA) le_rfl
    (fuHeaderInit H264NalType.Idr) (get_timestamp 0) 0
  simp only [List.length_replicate] at flenB
  norm_num at flenB
  refine ⟨⟨by simp only [List.length_cons, List.length_replicate], by norm_num,
    by rw [heA]; exact flenA⟩, ?_, ?_, ?_⟩
  · intro hall
    rw [heA] at hall
    have hp := (fpktA 0 (by rw [flenA]; norm_num)).1
    rw [flenA] at hp
    rw [if_neg (show ¬ ((0 : Nat) = 2 - 1) by norm_num)] at hp
    have hmem : (fuLoop (fuIndicator H264NalType.Idr) (fuHeaderInit H264NalType.Idr)
        (get_timestamp 0) 0 (List.replicate 1398 0xAA)).1.getD 0 [] ∈
        (fuLoop (fuIndicator H264NalType.Idr) (fuHeaderInit H264NalType.Idr)
        (get_timestamp 0) 0 (List.replicate 1398 0xAA)).1 := by
      rw [List.getD_eq_getElem _ [] (by rw [flenA]; norm_num)]
      exact List.getElem_mem ..
    have hle := hall _ hmem
    rw [hp] at hle
    omega
  · rw [heB]
    exact flenB
  · have hp4 := (fpktB 0 (by rw [flenB]; norm_num)).2.2.2.1
    rw [flenB] at hp4
    rw [if_pos (show (0 : Nat) = 0 from rfl),
      if_pos (show (0 : Nat) = 1 - 1 by norm_num)] at hp4
    unfold endBit
    rw [heB, hp4]
    decide

end RtpTransceiver
